import Mathlib

/-!
Verification development for the comix-neo core: the page-key derivation
(`comix/key.py`), the device-authentication helpers (`comix/amz.py`,
`comix/models.py`) and the exporter's image-entry extraction
(`comix/exporter.py`).

Byte strings (Python `bytes` / `bytearray`) are modelled as `List Nat`
with every element a byte value; machine arithmetic is `Nat` with
explicit `% 2^32` / `% 2^64` where Python's fixed-width crypto code
masks.  Python `str` values that are only ever used as ASCII byte
carriers (hex digests, base64 output) are modelled directly as their
byte lists.
-/

namespace Comix

/-! ### Little-endian byte serialisation (as used by MD5) -/

/-- The 4 little-endian bytes of `n % 2^32`. -/
def le32 (n : Nat) : List Nat :=
  [n % 256, n / 256 % 256, n / 65536 % 256, n / 16777216 % 256]

/-- The 8 little-endian bytes of `n % 2^64`. -/
def le64 (n : Nat) : List Nat :=
  le32 n ++ le32 (n / 4294967296)

/-- Rotate a 32-bit value left by `s` bits. -/
def rotl32 (x s : Nat) : Nat :=
  ((x <<< s) ||| (x >>> (32 - s))) % 4294967296

/-! ### MD5 (`hashlib.md5`), RFC 1321 -/

/-- The 64 MD5 sine-derived round constants. -/
def md5K : List Nat :=
  [0xd76aa478, 0xe8c7b756, 0x242070db, 0xc1bdceee,
   0xf57c0faf, 0x4787c62a, 0xa8304613, 0xfd469501,
   0x698098d8, 0x8b44f7af, 0xffff5bb1, 0x895cd7be,
   0x6b901122, 0xfd987193, 0xa679438e, 0x49b40821,
   0xf61e2562, 0xc040b340, 0x265e5a51, 0xe9b6c7aa,
   0xd62f105d, 0x02441453, 0xd8a1e681, 0xe7d3fbc8,
   0x21e1cde6, 0xc33707d6, 0xf4d50d87, 0x455a14ed,
   0xa9e3e905, 0xfcefa3f8, 0x676f02d9, 0x8d2a4c8a,
   0xfffa3942, 0x8771f681, 0x6d9d6122, 0xfde5380c,
   0xa4beea44, 0x4bdecfa9, 0xf6bb4b60, 0xbebfbc70,
   0x289b7ec6, 0xeaa127fa, 0xd4ef3085, 0x04881d05,
   0xd9d4d039, 0xe6db99e5, 0x1fa27cf8, 0xc4ac5665,
   0xf4292244, 0x432aff97, 0xab9423a7, 0xfc93a039,
   0x655b59c3, 0x8f0ccc92, 0xffeff47d, 0x85845dd1,
   0x6fa87e4f, 0xfe2ce6e0, 0xa3014314, 0x4e0811a1,
   0xf7537e82, 0xbd3af235, 0x2ad7d2bb, 0xeb86d391]

/-- The 64 per-round left-rotation amounts. -/
def md5S : List Nat :=
  [7, 12, 17, 22, 7, 12, 17, 22, 7, 12, 17, 22, 7, 12, 17, 22,
   5, 9, 14, 20, 5, 9, 14, 20, 5, 9, 14, 20, 5, 9, 14, 20,
   4, 11, 16, 23, 4, 11, 16, 23, 4, 11, 16, 23, 4, 11, 16, 23,
   6, 10, 15, 21, 6, 10, 15, 21, 6, 10, 15, 21, 6, 10, 15, 21]

/-- MD5 chaining state. -/
structure MD5State where
  a : Nat
  b : Nat
  c : Nat
  d : Nat
deriving Repr, DecidableEq

/-- MD5 initial chaining value. -/
def md5Init : MD5State := ⟨0x67452301, 0xefcdab89, 0x98badcfe, 0x10325476⟩

/-- The `g`-th little-endian 32-bit word of a 64-byte block. -/
def md5Word (blk : List Nat) (g : Nat) : Nat :=
  blk.getD (4 * g) 0 + 256 * blk.getD (4 * g + 1) 0 +
    65536 * blk.getD (4 * g + 2) 0 + 16777216 * blk.getD (4 * g + 3) 0

/-- One of the 64 MD5 rounds on a block. -/
def md5Round (blk : List Nat) (st : MD5State) (i : Nat) : MD5State :=
  let mask := 4294967295
  let fg : Nat × Nat :=
    if i < 16 then ((st.b &&& st.c) ||| ((st.b ^^^ mask) &&& st.d), i)
    else if i < 32 then ((st.d &&& st.b) ||| ((st.d ^^^ mask) &&& st.c), (5 * i + 1) % 16)
    else if i < 48 then (st.b ^^^ st.c ^^^ st.d, (3 * i + 5) % 16)
    else (st.c ^^^ (st.b ||| (st.d ^^^ mask)), (7 * i) % 16)
  let f := (fg.1 + st.a + md5K.getD i 0 + md5Word blk fg.2) % 4294967296
  ⟨st.d, (st.b + rotl32 f (md5S.getD i 0)) % 4294967296, st.b, st.c⟩

/-- Process one 64-byte block: 64 rounds, then add into the chaining state. -/
def md5Block (st : MD5State) (blk : List Nat) : MD5State :=
  let r := (List.range 64).foldl (md5Round blk) st
  ⟨(st.a + r.a) % 4294967296, (st.b + r.b) % 4294967296,
   (st.c + r.c) % 4294967296, (st.d + r.d) % 4294967296⟩

/-- MD5 padding: `0x80`, zeros to 56 mod 64, then the 64-bit LE bit length. -/
def md5Pad (msg : List Nat) : List Nat :=
  msg ++ 128 :: List.replicate ((119 - msg.length % 64) % 64) 0 ++ le64 (msg.length * 8)

/-- Split a byte list into successive 64-byte blocks. -/
def toBlocks (l : List Nat) : List (List Nat) :=
  if hl : l = [] then [] else
    have : l.length ≠ 0 := fun h0 => hl (List.length_eq_zero.mp h0)
    l.take 64 :: toBlocks (l.drop 64)
termination_by l.length
decreasing_by
  simp only [List.length_drop]
  omega

/-- Embedding of `hashlib.md5(msg).digest()`: the 16-byte MD5 digest. -/
def md5 (msg : List Nat) : List Nat :=
  let st := (toBlocks (md5Pad msg)).foldl md5Block md5Init
  le32 st.a ++ le32 st.b ++ le32 st.c ++ le32 st.d

/-! ### Hex and base64 codecs (`binascii.hexlify`, `base64.b64encode`) -/

/-- ASCII code of the lowercase hex digit for a nibble. -/
def hexDigitCode (n : Nat) : Nat :=
  if n < 10 then 48 + n else 87 + n

/-- Embedding of `binascii.hexlify`: each byte becomes two lowercase hex digit bytes. -/
def hexlify (l : List Nat) : List Nat :=
  l.flatMap fun b => [hexDigitCode (b / 16), hexDigitCode (b % 16)]

/-- ASCII code of the `n`-th character of the standard base64 alphabet. -/
def b64char (n : Nat) : Nat :=
  if n < 26 then 65 + n
  else if n < 52 then 97 + (n - 26)
  else if n < 62 then 48 + (n - 52)
  else if n = 62 then 43 else 47

/-- Embedding of `base64.b64encode` over byte lists (output is the ASCII byte list,
`=` = byte 61 used for padding). -/
def b64encode : List Nat → List Nat
  | x :: y :: z :: rest =>
    let w := x * 65536 + y * 256 + z
    b64char (w / 262144) :: b64char (w / 4096 % 64) ::
      b64char (w / 64 % 64) :: b64char (w % 64) :: b64encode rest
  | [x, y] =>
    let w := x * 65536 + y * 256
    [b64char (w / 262144), b64char (w / 4096 % 64), b64char (w / 64 % 64), 61]
  | [x] =>
    let w := x * 65536
    [b64char (w / 262144), b64char (w / 4096 % 64), 61, 61]
  | [] => []

/-! ### UTF-8 encoding of Python `str` values (`str.encode("utf-8")`) -/

/-- UTF-8 encoding of a single code point. -/
def utf8Char (c : Char) : List Nat :=
  let n := c.toNat
  if n < 128 then [n]
  else if n < 2048 then [192 + n / 64, 128 + n % 64]
  else if n < 65536 then [224 + n / 4096, 128 + n / 64 % 64, 128 + n % 64]
  else [240 + n / 262144, 128 + n / 4096 % 64, 128 + n / 64 % 64, 128 + n % 64]

/-- Embedding of `s.encode("utf-8")` as a byte list. -/
def strBytes (s : String) : List Nat :=
  s.data.flatMap utf8Char

/-- Python `s[::-1]`: character-wise string reversal. -/
def strRev (s : String) : String :=
  ⟨s.data.reverse⟩

/-- Embedding of `str(n).encode()` for a nonnegative Python int. -/
def natBytes (n : Nat) : List Nat :=
  strBytes (toString n)

/-! ### `comix/key.py` — the `ComixKey` page-key derivation -/

namespace ComixKey

/-- Embedding of `ComixKey.hash` (key.py:34-36): lowercase-hex MD5 digest.  The Python
function returns `str`; the hex digest is ASCII, so it is modelled as its
byte list. -/
def hash (a : List Nat) : List Nat :=
  hexlify (md5 a)

/-- Embedding of `ComixKey.reverse` (key.py:38-46).  The Python loop fixes its bound at
entry (`range(len(a) - 1, i, -1)` with `i = 0`), then swaps `a[idx]` and
`a[i]` while `i` increments; the fold state is the mutated buffer paired
with `i`. -/
def reverse (a : List Nat) : List Nat :=
  (((List.range' 1 (a.length - 1)).reverse).foldl
    (fun (st : List Nat × Nat) idx =>
      let b := st.1.getD idx 0
      ((st.1.set idx (st.1.getD st.2 0)).set st.2 b, st.2 + 1))
    (a, 0)).1

/-- Embedding of `ComixKey.expand` (key.py:48-57): allocate a zeroed buffer of twice the
length, copy `a` into the first half, then fill `b[j] = b[len_base]` with
`len_base` decremented before each write; the fold state is the buffer
paired with `len_base`. -/
def expand (a : List Nat) : List Nat :=
  (((List.range' a.length a.length)).foldl
    (fun (st : List Nat × Nat) j =>
      (st.1.set j (st.1.getD (st.2 - 1) 0), st.2 - 1))
    (a ++ List.replicate a.length 0, a.length)).1

/-- The byte string assembled at key.py:66-74 (`data_to_hash`). -/
def dataToHash (digest : List Nat) (item_id : Nat) (version : String)
    (publisher_id : Nat) (index : Nat) : List Nat :=
  let i := publisher_id + 1
  let i := if item_id % 2 = 0 then i + 1 else i
  natBytes (index % 10)
    ++ strBytes (strRev version)
    ++ natBytes (item_id % 10)
    ++ natBytes (index * i)
    ++ digest
    ++ strBytes version
    ++ natBytes (publisher_id % 10)

/-- The expanded buffer after the XOR loop at key.py:78-80: every byte of
`expand data_to_hash` XORed with `index % 256`. -/
def xorBuffer (digest : List Nat) (item_id : Nat) (version : String)
    (publisher_id : Nat) (index : Nat) : List Nat :=
  (expand (dataToHash digest item_id version publisher_id index)).map
    (fun x => x ^^^ index % 256)

/-- Embedding of `ComixKey.calculate_key` (key.py:60-84).  The in-place mutations of the
Python bytearray are rendered as pure rebindings; the result is the byte
list of `b64encode(hashA + hashB)[:50]` (the Python function returns
`bytes`). -/
def calculate_key (digest : List Nat) (item_id : Nat) (version : String)
    (publisher_id : Nat) (index : Nat) : List Nat :=
  let e := xorBuffer digest item_id version publisher_id index
  let a := hash e
  let e2 := reverse e
  (b64encode (a ++ hash e2)).take 50

end ComixKey

/-! ### `comix/models.py` — `AmazonDevice`, `AmazonAccount` -/

/-- Embedding of `AmazonDevice` (models.py:106-110). -/
structure AmazonDevice where
  name : String
  serial : String
  type : String
deriving DecidableEq, Repr

/-- Embedding of `AmazonAccount` (models.py:128-142).  `expire_at` is the
whole-second UTC timestamp; current time is passed explicitly where the
Python methods read the wall clock. -/
structure AmazonAccount where
  id : String
  name : String
  email : String
  password : String
  region : String
  pool : Option String
  domain : String
  device : AmazonDevice
  access_token : String
  refresh_token : String
  private_key : String
  adp_token : String
  expire_at : Int
deriving DecidableEq, Repr

/-- Embedding of `AmazonAccount.is_expired` (models.py:144-145):
`self.expire_at < int(datetime.now(timezone.utc).timestamp())`. -/
def AmazonAccount.is_expired (acc : AmazonAccount) (now : Int) : Bool :=
  acc.expire_at < now

/-- Embedding of `AmazonAccount.update_expiry` (models.py:147-148):
`self.expire_at = int(datetime.now(timezone.utc).timestamp()) + expires_in`. -/
def AmazonAccount.update_expiry (acc : AmazonAccount) (expires_in now : Int) : AmazonAccount :=
  { acc with expire_at := now + expires_in }

/-- A concrete account used to instantiate closed statements. -/
def sampleAccount : AmazonAccount :=
  { id := "id1", name := "Name", email := "e@x.com", password := "pw",
    region := "NA", pool := none, domain := "com",
    device := { name := "Pixel 2", serial := "abc", type := "A2A33MVZVPQKHY" },
    access_token := "tokA", refresh_token := "tokR",
    private_key := "priv", adp_token := "adp", expire_at := 100 }

/-! ### `comix/amz.py` — device id, PKCS#7, refresh/token state machine -/

/-- The device-serial load logic of `AmazonAuth.__init__` (amz.py:79-90):
`stored` is the (stripped) content of `comix_device_id` when the file
exists, `fresh` the `token_hex(16)` value generated on regeneration.
Result: the device id used, and whether a fresh value was persisted. -/
def loadDeviceId (stored : Option String) (fresh : String) : String × Bool :=
  match stored with
  | some readId => if readId.length ≠ 16 then (fresh, true) else (readId, false)
  | none => (fresh, true)

/-- Embedding of `secrets.token_hex` over the given random bytes: the lowercase hex
string, two characters per byte (so 16 random bytes give 32 characters). -/
def tokenHexStr (randomBytes : List Nat) : String :=
  ⟨(hexlify randomBytes).map Char.ofNat⟩

/-- Embedding of `AmazonAuth._pkcs7_pad` (amz.py:102-104):
`data + bytes([padsize]) * padsize` with `padsize = 16 - len(data) % 16`. -/
def pkcs7_pad (data : List Nat) : List Nat :=
  data ++ List.replicate (16 - data.length % 16) (16 - data.length % 16)

/-- Embedding of `AmazonAuth._pkcs7_unpad` (amz.py:106-108): `data[:-data[-1]]`; `none`
models the `IndexError` of `data[-1]` on empty input, and a last byte of 0
yields `data[:-0] = data[:0] = b""` exactly as in Python. -/
def pkcs7_unpad (data : List Nat) : Option (List Nat) :=
  match data.getLast? with
  | none => none
  | some offset => some (if offset = 0 then [] else data.take (data.length - offset))

/-- Error taxonomy of the refresh path. -/
inductive AuthErr where
  | authFailed
  | httpError
  | parseError
deriving DecidableEq, Repr

/-- Outcome of the one network call `refresh_token` makes: whether
`requests.post` raises, and the `access_token` field of the parsed JSON
response (`none` = missing key, Python re-raises the `KeyError`). -/
structure RefreshWorld where
  postFails : Bool
  accessToken : Option String
deriving DecidableEq, Repr

/-- Embedding of `AmazonAuth.refresh_token` (amz.py:222-252) for a session whose
`_account` is already loaded (the `_account is None` branch is unreachable
from the `token` accessor, which logs in first).  `password` is the
session's `_password`; on success the account's access token is replaced
and `update_expiry(3600)` runs. -/
def refresh_token (password : Option String) (acc : AmazonAccount)
    (w : RefreshWorld) (now : Int) : Except AuthErr AmazonAccount :=
  match password with
  | none => .error .authFailed
  | some _ =>
    if w.postFails then .error .httpError
    else
      match w.accessToken with
      | none => .error .parseError
      | some tok => .ok (({ acc with access_token := tok }).update_expiry 3600 now)

/-- Observable calls the `token` accessor makes. -/
inductive AuthEvent where
  | refreshCall
  | authenticateCall
deriving DecidableEq, Repr

/-- The `AmazonAuth.token` accessor (amz.py:369-375) for a session whose
`_account` is already loaded in memory (the claim's scenario; when
`_account is None` the accessor calls `login()` instead).  Returns the
outcome together with the trace of refresh/registration calls performed:
the source wraps `self.refresh_token()` in no `try`, so its failure
propagates. -/
def token (password : Option String) (acc : AmazonAccount) (w : RefreshWorld)
    (now : Int) : Except AuthErr (String × AmazonAccount) × List AuthEvent :=
  if acc.is_expired now then
    match refresh_token password acc w now with
    | .ok acc2 => (.ok (acc2.access_token, acc2), [.refreshCall])
    | .error e => (.error e, [.refreshCall])
  else
    (.ok (acc.access_token, acc), [])

/-! ### `signed_request` timestamp (amz.py:310) -/

/-- A UTC wall-clock instant as Python's `datetime` carries it. -/
structure PyDateTime where
  year : Nat
  month : Nat
  day : Nat
  hour : Nat
  minute : Nat
  second : Nat
  microsecond : Nat
deriving DecidableEq, Repr

/-- Zero padding in the style of `"%06d"` of a decimal rendering. -/
def padTo (w n : Nat) : List Char :=
  List.replicate (w - (Nat.repr n).data.length) '0' ++ (Nat.repr n).data

/-- Embedding of `datetime.isoformat("T")`: Python omits the `.ffffff` fractional part
entirely when `microsecond == 0`. -/
def isoformatT (dt : PyDateTime) : List Char :=
  padTo 4 dt.year ++ ['-'] ++ padTo 2 dt.month ++ ['-'] ++ padTo 2 dt.day
    ++ ['T'] ++ padTo 2 dt.hour ++ [':'] ++ padTo 2 dt.minute ++ [':']
    ++ padTo 2 dt.second
    ++ (if dt.microsecond = 0 then [] else ['.'] ++ padTo 6 dt.microsecond)

/-- The timestamp built at amz.py:310:
`datetime.utcnow().isoformat("T")[:-7] + "Z"` (drop the last seven
characters, then append `Z`). -/
def signedRequestTimestamp (dt : PyDateTime) : List Char :=
  (isoformatT dt).take ((isoformatT dt).length - 7) ++ ['Z']

/-- Modelled from the spec: "Format current time as an ISO-8601 string
truncated to whole seconds, suffixed `Z`" — the rendering the claim says
the code produces for every instant. -/
def isoWholeSecondsZ (dt : PyDateTime) : List Char :=
  padTo 4 dt.year ++ ['-'] ++ padTo 2 dt.month ++ ['-'] ++ padTo 2 dt.day
    ++ ['T'] ++ padTo 2 dt.hour ++ [':'] ++ padTo 2 dt.minute ++ [':']
    ++ padTo 2 dt.second ++ ['Z']

/-! ### `comix/exporter.py` — `MangaExporter.add_image` entry filtering -/

/-- Embedding of `VALID_IMAGES` (exporter.py:25). -/
def VALID_IMAGES : List String :=
  [".jpg", ".jpeg", "jpg", "jpeg", ".png", "png"]

/-- Embedding of `os.path.basename`: the part after the last `/`. -/
def basename (s : String) : String :=
  ⟨(s.data.reverse.takeWhile (fun c => c ≠ '/')).reverse⟩

/-- Embedding of `os.path.splitext(s)[1]`: the extension from the last dot, unless every
character before that dot is itself a dot (then there is no extension). -/
def splitextExt (s : String) : String :=
  let cs := s.data
  let idxs := (List.range cs.length).filter
    (fun i => cs.getD i ' ' == '.' && (List.range i).any (fun j => cs.getD j ' ' != '.'))
  match idxs.getLast? with
  | some i => ⟨cs.drop i⟩
  | none => ""

/-- The error kinds the specification attributes to the page-extraction
operation; the source never raises either from `add_image`. -/
inductive ExporterError where
  | noImageEntry
  | corruptContainer
deriving DecidableEq, Repr

/-- A container entry as `zipfile` reports it. -/
structure ZipEntry where
  filename : String
  isDir : Bool
deriving DecidableEq, Repr

/-- Embedding of `MangaExporter.add_image` (exporter.py:64-91), filesystem effects
elided: collect the non-directory entries whose extension is in
`VALID_IMAGES`, then run the rename loop (`"<release> - pNNN<ext>"` with
the running image counter).  Every path returns `.ok`; the source raises
neither error. -/
def add_image (release_name : String) (image_count : Nat)
    (entries : List ZipEntry) : Except ExporterError (List String × Nat) :=
  let temporary_extract := (entries.filter
    (fun e => !e.isDir && VALID_IMAGES.contains (splitextExt (basename e.filename)))).map
      (fun e => e.filename)
  .ok (temporary_extract.foldl
    (fun (st : List String × Nat) img =>
      (st.1 ++ [release_name ++ " - p" ++ ⟨padTo 3 st.2⟩ ++ splitextExt img], st.2 + 1))
    ([], image_count))

end Comix

namespace Comix

/-- Writing back the value already stored at an index leaves a list unchanged. -/
theorem set_getD_self {α : Type} (l : List α) (j : Nat) (d : α) :
    l.set j (l.getD j d) = l := by
  induction l generalizing j with
  | nil => simp
  | cons x xs ih =>
    cases j with
    | zero => simp [List.getD]
    | succ j =>
      simp only [List.getD_cons_succ, List.set_cons_succ]
      rw [ih]

/-- Invariant for the `ComixKey.expand` fill loop: after `t` iterations the
buffer holds `a`, the first `t` bytes of `a.reverse`, and zeros, and the
`len_base` counter is `a.length - t`; running the remaining `k` iterations
completes `a ++ a.reverse`. -/
theorem expand_loop (a : List Nat) (k t : Nat) (htk : t + k = a.length) :
    ((List.range' (a.length + t) k).foldl
      (fun (st : List Nat × Nat) j =>
        (st.1.set j (st.1.getD (st.2 - 1) 0), st.2 - 1))
      (a ++ (a.reverse.take t ++ List.replicate (a.length - t) 0), a.length - t)).1
      = a ++ a.reverse := by
  induction k generalizing t with
  | zero =>
    have ht : t = a.length := by omega
    subst ht
    simp [List.take_length]
  | succ k ih =>
    have htlt : t < a.length := by omega
    rw [List.range'_succ, List.foldl_cons]
    have hrevlen : a.reverse.length = a.length := List.length_reverse a
    have hgd :
        (a ++ (a.reverse.take t ++ List.replicate (a.length - t) 0)).getD
          (a.length - t - 1) 0 = a.reverse.getD t 0 := by
      rw [List.getD_append _ _ _ _ (by omega)]
      rw [List.getD_eq_getElem?_getD, List.getD_eq_getElem?_getD]
      rw [List.getElem?_reverse (l := a) (i := t) (by omega)]
      have hidx : a.length - t - 1 = a.length - 1 - t := by omega
      rw [hidx]
    have hset :
        (a ++ (a.reverse.take t ++ List.replicate (a.length - t) 0)).set
            (a.length + t) (a.reverse.getD t 0)
          = a ++ (a.reverse.take (t + 1) ++ List.replicate (a.length - (t + 1)) 0) := by
      rw [List.set_append, if_neg (by omega)]
      congr 1
      have hlt : (a.reverse.take t).length = t := by
        rw [List.length_take]
        omega
      rw [List.set_append, if_neg (by omega), hlt]
      have : a.length + t - a.length - t = 0 := by omega
      rw [this]
      have hnt : a.length - t = (a.length - (t + 1)) + 1 := by omega
      rw [hnt, List.replicate_succ, List.set_cons_zero]
      rw [List.take_succ]
      rw [List.getElem?_eq_getElem (l := a.reverse) (n := t) (by omega),
        List.getD_eq_getElem?_getD,
        List.getElem?_eq_getElem (l := a.reverse) (n := t) (by omega)]
      simp
    simp only [hgd, hset]
    have harith : a.length + t + 1 = a.length + (t + 1) := by omega
    have harith2 : a.length - t - 1 = a.length - (t + 1) := by omega
    rw [harith, harith2]
    exact ih (t + 1) (by omega)

/-- Lemma: `ComixKey.expand` returns its input followed by the input's byte
reversal: the loop's reads always hit the first (untouched) half. -/
theorem expand_eq (a : List Nat) : ComixKey.expand a = a ++ a.reverse := by
  have h := expand_loop a a.length 0 (by omega)
  unfold ComixKey.expand
  simpa using h

/-- The swap loop of `ComixKey.reverse` leaves the buffer unchanged whenever
every visited index pair carries equal values: `L` enumerates the `idx`
values, the counter starts at `i`, and position `L[k]` always holds the
same byte as position `i + k`. -/
theorem swap_loop_fixed (p : List Nat) (L : List Nat) (i : Nat)
    (hL : ∀ k, k < L.length → p.getD (L.getD k 0) 0 = p.getD (i + k) 0) :
    ((L.foldl
      (fun (st : List Nat × Nat) idx =>
        let b := st.1.getD idx 0
        ((st.1.set idx (st.1.getD st.2 0)).set st.2 b, st.2 + 1))
      (p, i)).1) = p := by
  induction L generalizing i with
  | nil => rfl
  | cons idx L ih =>
    rw [List.foldl_cons]
    have h0 : p.getD idx 0 = p.getD i 0 := by
      have := hL 0 (by simp)
      simpa using this
    have hstep :
        ((p.set idx (p.getD i 0)).set i (p.getD idx 0), i + 1) = ((p, i + 1) : List Nat × Nat) := by
      rw [← h0, set_getD_self, h0, set_getD_self]
    simp only []
    rw [hstep]
    apply ih
    intro k hk
    have h1 := hL (k + 1) (by simpa using Nat.succ_lt_succ hk)
    have harith : i + (k + 1) = i + 1 + k := by omega
    rw [harith] at h1
    simpa using h1

/-- A palindromic byte list is untouched by `ComixKey.reverse`: every swap
the fixed-bound loop performs pairs two mirror positions holding equal
bytes. -/
theorem comixReverse_of_palindrome (p : List Nat) (hp : p.reverse = p) :
    ComixKey.reverse p = p := by
  unfold ComixKey.reverse
  apply swap_loop_fixed
  intro k hk
  have hklen : k < p.length - 1 := by
    simpa using hk
  have hLk : ((List.range' 1 (p.length - 1)).reverse).getD k 0 = p.length - 1 - k := by
    rw [List.getD_eq_getElem?_getD]
    rw [List.getElem?_reverse (l := List.range' 1 (p.length - 1)) (i := k)
      (by simpa using hklen)]
    rw [List.getElem?_eq_getElem (l := List.range' 1 (p.length - 1))
      (n := (List.range' 1 (p.length - 1)).length - 1 - k)
      (by simp; omega)]
    rw [Option.getD_some, List.getElem_range']
    simp only [List.length_range']
    omega
  rw [hLk, Nat.zero_add]
  have hk' : k < p.length := by omega
  rw [List.getD_eq_getElem?_getD, List.getD_eq_getElem?_getD]
  conv_rhs => rw [← hp]
  rw [List.getElem?_reverse (l := p) (i := k) hk']

/-- The XORed expanded buffer is a palindrome: `expand` returns
`buffer ++ reverse(buffer)` and a bytewise XOR preserves that shape. -/
theorem xorBuffer_palindrome (digest : List Nat) (item_id : Nat)
    (version : String) (publisher_id : Nat) (index : Nat) :
    (ComixKey.xorBuffer digest item_id version publisher_id index).reverse
      = ComixKey.xorBuffer digest item_id version publisher_id index := by
  unfold ComixKey.xorBuffer
  rw [expand_eq, ← List.map_reverse]
  simp [List.reverse_append]


/-- The MD5 digest always has 16 bytes. -/
theorem md5_length (msg : List Nat) : (md5 msg).length = 16 := by
  simp [md5, le32]

/-- Lemma: `hexlify` doubles the byte count. -/
theorem hexlify_length (l : List Nat) : (hexlify l).length = 2 * l.length := by
  induction l with
  | nil => rfl
  | cons x xs ih =>
    simp only [hexlify, List.flatMap_cons] at ih ⊢
    simp [ih]
    omega

/-- Lemma: `ComixKey.hash` always returns 32 hex-digit bytes. -/
theorem hash_length (l : List Nat) : (ComixKey.hash l).length = 32 := by
  rw [ComixKey.hash, hexlify_length, md5_length]

/-- Lemma: `b64encode` output length: four bytes per started three-byte group. -/
theorem b64encode_length (l : List Nat) : (b64encode l).length = 4 * ((l.length + 2) / 3) := by
  induction l using b64encode.induct with
  | case1 x y z rest ih =>
    simp only [b64encode, List.length_cons, ih]
    omega
  | case2 x y => simp [b64encode]
  | case3 x => simp [b64encode]
  | case4 => rfl

/-- C1: the second hash computed by `ComixKey.calculate_key` equals the
lowercase-hex MD5 digest of the byte-reversal of the XORed expanded
buffer: although the fixed-bound loop of `ComixKey.reverse` only swaps the
first and last byte, the buffer it acts on is a palindrome, so its result
coincides with the true byte-reversal (both leave the buffer unchanged),
and the passphrase equals `b64encode(hashA ++ md5hex(reverse(e)))[:50]`. -/
theorem calculate_key_hashB_is_md5_of_byte_reversal (digest : List Nat) (item_id : Nat)
    (version : String) (publisher_id : Nat) (index : Nat) :
    ComixKey.calculate_key digest item_id version publisher_id index
      = (b64encode
          (ComixKey.hash (ComixKey.xorBuffer digest item_id version publisher_id index)
            ++ ComixKey.hash
              ((ComixKey.xorBuffer digest item_id version publisher_id index).reverse))).take
          50 := by
  simp only [ComixKey.calculate_key]
  rw [comixReverse_of_palindrome _ (xorBuffer_palindrome digest item_id version publisher_id index)]
  rw [xorBuffer_palindrome digest item_id version publisher_id index]

/-- C2: the two MD5 hashes inside `ComixKey.calculate_key` always agree
(the XORed expanded buffer is a palindrome and the reverse step fixes it),
so the passphrase is `b64encode(h ++ h)[:50]` for the single 32-character
hex digest `h` of the buffer: the second hash adds no information. -/
theorem calculate_key_two_hashes_equal (digest : List Nat) (item_id : Nat)
    (version : String) (publisher_id : Nat) (index : Nat) :
    ComixKey.hash
        (ComixKey.reverse (ComixKey.xorBuffer digest item_id version publisher_id index))
      = ComixKey.hash (ComixKey.xorBuffer digest item_id version publisher_id index)
    ∧ ComixKey.calculate_key digest item_id version publisher_id index
      = (b64encode
          (ComixKey.hash (ComixKey.xorBuffer digest item_id version publisher_id index)
            ++ ComixKey.hash (ComixKey.xorBuffer digest item_id version publisher_id index))).take
          50
    ∧ (ComixKey.hash (ComixKey.xorBuffer digest item_id version publisher_id index)).length
      = 32 := by
  refine ⟨?_, ?_, hash_length _⟩
  · rw [comixReverse_of_palindrome _
      (xorBuffer_palindrome digest item_id version publisher_id index)]
  · simp only [ComixKey.calculate_key]
    rw [comixReverse_of_palindrome _
      (xorBuffer_palindrome digest item_id version publisher_id index)]

/-- C6: `ComixKey.calculate_key` is deterministic (equal input tuples give
the identical passphrase) and its result always has exactly 50 bytes
(base64 of the 64 concatenated hex-digest characters, truncated). -/
theorem calculate_key_deterministic_length50 (digest : List Nat) (item_id : Nat)
    (version : String) (publisher_id : Nat) (index : Nat) :
    (ComixKey.calculate_key digest item_id version publisher_id index).length = 50
    ∧ ∀ d2 i2 v2 p2 x2, d2 = digest → i2 = item_id → v2 = version →
        p2 = publisher_id → x2 = index →
        ComixKey.calculate_key d2 i2 v2 p2 x2
          = ComixKey.calculate_key digest item_id version publisher_id index := by
  constructor
  · simp only [ComixKey.calculate_key]
    rw [List.length_take, b64encode_length, List.length_append, hash_length, hash_length]
    decide
  · intro d2 i2 v2 p2 x2 hd hi hv hp hx
    rw [hd, hi, hv, hp, hx]

/-- Witness for C6 at a concrete input tuple. -/
theorem calculate_key_deterministic_length50_witness :
    (ComixKey.calculate_key [0] 100 "1.0" 5 0).length = 50
    ∧ ComixKey.calculate_key [0] 100 "1.0" 5 0
      = ComixKey.calculate_key [0] 100 "1.0" 5 0 :=
  ⟨(calculate_key_deterministic_length50 [0] 100 "1.0" 5 0).1,
    (calculate_key_deterministic_length50 [0] 100 "1.0" 5 0).2 [0] 100 "1.0" 5 0
      rfl rfl rfl rfl rfl⟩


/-- Decidable equality for `Except`, used to evaluate closed statements. -/
instance exceptDecEq {e a : Type} [DecidableEq e] [DecidableEq a] :
    DecidableEq (Except e a)
  | .ok x, .ok y =>
    if h : x = y then .isTrue (by rw [h])
    else .isFalse (by intro hc; cases hc; exact h rfl)
  | .ok _, .error _ => .isFalse (fun hc => Except.noConfusion hc)
  | .error _, .ok _ => .isFalse (fun hc => Except.noConfusion hc)
  | .error x, .error y =>
    if h : x = y then .isTrue (by rw [h])
    else .isFalse (by intro hc; cases hc; exact h rfl)

/-- C3: the device-serial load in `AmazonAuth.__init__` is a code bug: the
code persists `token_hex(16)` values of 32 hex characters but validates the
stored serial with `len(...) != 16`, so a valid 32-hex-character serial —
including every serial the code itself ever wrote — is regenerated instead
of being returned unchanged (a 10-character garbage string is regenerated
as the claim says). -/
theorem loadDeviceId_rejects_own_32hex_serial :
    (tokenHexStr (List.replicate 16 171)).length = 32
    ∧ loadDeviceId (some (tokenHexStr (List.replicate 16 171)))
        (tokenHexStr (List.replicate 16 0))
      = (tokenHexStr (List.replicate 16 0), true)
    ∧ loadDeviceId (some "garbage123") (tokenHexStr (List.replicate 16 0))
      = (tokenHexStr (List.replicate 16 0), true) := by
  refine ⟨by decide, by decide, by decide⟩

/-- C5 counterexample: a credential whose `expire_at` equals the current
whole-second timestamp is NOT treated as expired by
`AmazonAccount.is_expired` (the comparison is strict `<`), contradicting
the claim that `now >= expire_at` already counts as expired. -/
theorem is_expired_boundary_counterexample :
    sampleAccount.expire_at = 100 ∧ sampleAccount.is_expired 100 = false := by
  refine ⟨by decide, by decide⟩

/-- C5 amended: a credential is treated as expired exactly when the current
time is strictly past `expire_at`; at `now = expire_at` it is still
accepted. -/
theorem is_expired_iff_strictly_past (acc : AmazonAccount) (now : Int) :
    acc.is_expired now = true ↔ acc.expire_at < now := by
  simp [AmazonAccount.is_expired]

/-- C7: `_pkcs7_pad` appends `k = 16 - len % 16` bytes of value `k`, the
padded length is a multiple of 16, a full 16-byte block is appended for
block-aligned input, and `_pkcs7_unpad` inverts `_pkcs7_pad`. -/
theorem pkcs7_pad_unpad_roundtrip (data : List Nat) :
    pkcs7_pad data
        = data ++ List.replicate (16 - data.length % 16) (16 - data.length % 16)
    ∧ (pkcs7_pad data).length % 16 = 0
    ∧ (data.length % 16 = 0 → pkcs7_pad data = data ++ List.replicate 16 16)
    ∧ pkcs7_unpad (pkcs7_pad data) = some data := by
  have hmod : data.length % 16 < 16 := Nat.mod_lt _ (by norm_num)
  refine ⟨rfl, ?_, ?_, ?_⟩
  · simp only [pkcs7_pad, List.length_append, List.length_replicate]
    omega
  · intro h0
    simp [pkcs7_pad, h0]
  · have hlast : (pkcs7_pad data).getLast? = some (16 - data.length % 16) := by
      rw [pkcs7_pad, List.getLast?_append, List.getLast?_replicate,
        if_neg (by omega)]
      rfl
    simp only [pkcs7_unpad, hlast]
    rw [if_neg (by omega)]
    simp only [pkcs7_pad, List.length_append, List.length_replicate]
    have harith : data.length + (16 - data.length % 16) - (16 - data.length % 16)
        = data.length := by omega
    rw [harith, List.take_left]

/-- Witness for C7 at the block-aligned empty input. -/
theorem pkcs7_pad_unpad_roundtrip_witness :
    ([] : List Nat).length % 16 = 0
    ∧ pkcs7_pad [] = List.replicate 16 16
    ∧ pkcs7_unpad (pkcs7_pad []) = some [] :=
  ⟨rfl, by simpa using (pkcs7_pad_unpad_roundtrip []).2.2.1 rfl,
    (pkcs7_pad_unpad_roundtrip []).2.2.2⟩

/-- C8: code bug in the `signed_request` timestamp: Python's
`isoformat()` omits the fractional part when `microsecond == 0`, so the
unconditional `[:-7]` slice then eats seven characters of the whole-second
rendering and the header carries a corrupt timestamp, against the spec's
required whole-second ISO-8601 `Z` form (which the code does produce
whenever the microsecond component is nonzero). -/
theorem signedRequestTimestamp_zero_microsecond_divergence :
    signedRequestTimestamp ⟨2024, 1, 1, 0, 0, 0, 0⟩ = "2024-01-01T0Z".data
    ∧ isoWholeSecondsZ ⟨2024, 1, 1, 0, 0, 0, 0⟩ = "2024-01-01T00:00:00Z".data
    ∧ signedRequestTimestamp ⟨2024, 1, 1, 0, 0, 0, 0⟩
        ≠ isoWholeSecondsZ ⟨2024, 1, 1, 0, 0, 0, 0⟩
    ∧ signedRequestTimestamp ⟨2024, 1, 1, 12, 30, 5, 123456⟩
        = isoWholeSecondsZ ⟨2024, 1, 1, 12, 30, 5, 123456⟩ := by
  refine ⟨by decide, by decide, by decide, by decide⟩

/-- C4 counterexample: an expired in-memory credential whose refresh fails
(network error) makes the `token` accessor propagate the error after one
refresh call and zero registration calls — the claimed fallback
registration does not happen in the accessor. -/
theorem token_refresh_failure_counterexample :
    ({ sampleAccount with expire_at := 0 } : AmazonAccount).is_expired 100 = true
    ∧ (token (some "pw") { sampleAccount with expire_at := 0 }
        ⟨true, none⟩ 100).1 = .error .httpError
    ∧ (token (some "pw") { sampleAccount with expire_at := 0 }
        ⟨true, none⟩ 100).2 = [.refreshCall] := by
  refine ⟨by decide, by decide, by decide⟩

/-- C4 amended: on an expired loaded credential the `token` accessor
performs exactly one refresh call and no registration call; a refresh
success returns the refreshed access token, a refresh failure propagates
unchanged. -/
theorem token_expired_one_refresh_propagates (password : Option String)
    (acc : AmazonAccount) (w : RefreshWorld) (now : Int)
    (hexp : acc.is_expired now = true) :
    (token password acc w now).2 = [.refreshCall]
    ∧ (token password acc w now).1
        = (match refresh_token password acc w now with
            | .ok acc2 => .ok (acc2.access_token, acc2)
            | .error e => .error e) := by
  constructor
  · simp only [token, hexp]
    cases refresh_token password acc w now <;> simp
  · simp only [token, hexp]
    cases refresh_token password acc w now <;> simp

/-- Witness for C4 at a concrete expired credential whose refresh fails
for lack of a password. -/
theorem token_expired_one_refresh_propagates_witness :
    ({ sampleAccount with expire_at := 50 } : AmazonAccount).is_expired 100 = true
    ∧ (token none { sampleAccount with expire_at := 50 }
        ⟨false, some "t"⟩ 100).2 = [AuthEvent.refreshCall] :=
  ⟨by decide,
    (token_expired_one_refresh_propagates none { sampleAccount with expire_at := 50 }
      ⟨false, some "t"⟩ 100 (by decide)).1⟩

/-- C9 counterexample: a container with no non-directory entry bearing a
recognized image extension makes `add_image` complete without error and
return an empty image list — no `NoImageEntryError` is raised (the error
type does not exist in the source). -/
theorem add_image_no_image_completes_counterexample :
    add_image "Comic" 0 [⟨"page.txt", false⟩, ⟨"art/", true⟩] = .ok ([], 0)
    ∧ add_image "Comic" 0 [⟨"page.txt", false⟩, ⟨"art/", true⟩]
        ≠ .error .noImageEntry := by
  refine ⟨by decide, by decide⟩

/-- C9 amended: when no non-directory entry has a recognized image
extension, `add_image` completes without error and yields no image. -/
theorem add_image_no_image_entries_returns_empty (release_name : String)
    (image_count : Nat) (entries : List ZipEntry)
    (h : ∀ e ∈ entries, e.isDir = true
        ∨ VALID_IMAGES.contains (splitextExt (basename e.filename)) = false) :
    add_image release_name image_count entries = .ok ([], image_count) := by
  have hfil : entries.filter
      (fun e => !e.isDir && VALID_IMAGES.contains (splitextExt (basename e.filename)))
        = [] := by
    rw [List.filter_eq_nil_iff]
    intro e he
    rcases h e he with h1 | h1
    · simp [h1]
    · simp only [h1, Bool.and_false]
      simp
  simp only [add_image, hfil]
  rfl

/-- Witness for C9 on a concrete extension-free container listing. -/
theorem add_image_no_image_entries_returns_empty_witness :
    add_image "X" 3 [⟨"cover.txt", false⟩] = .ok ([], 3) :=
  add_image_no_image_entries_returns_empty "X" 3 [⟨"cover.txt", false⟩] (by decide)

/-- C10: a successful `refresh_token` changes only the credential's access
token (to the response's token) and its expiry (to now + 3600 seconds);
id, name, email, password, region, pool, domain, device, refresh token,
private key and adp token are untouched. -/
theorem refresh_token_frame (password : Option String) (acc : AmazonAccount)
    (w : RefreshWorld) (now : Int) (acc2 : AmazonAccount)
    (h : refresh_token password acc w now = .ok acc2) :
    acc2.id = acc.id ∧ acc2.name = acc.name ∧ acc2.email = acc.email
    ∧ acc2.password = acc.password ∧ acc2.region = acc.region
    ∧ acc2.pool = acc.pool ∧ acc2.domain = acc.domain
    ∧ acc2.device = acc.device ∧ acc2.refresh_token = acc.refresh_token
    ∧ acc2.private_key = acc.private_key ∧ acc2.adp_token = acc.adp_token
    ∧ acc2.expire_at = now + 3600
    ∧ w.accessToken = some acc2.access_token := by
  cases password with
  | none => simp [refresh_token] at h
  | some pw =>
    by_cases hpf : w.postFails
    · simp [refresh_token, hpf] at h
    · cases hat : w.accessToken with
      | none => simp [refresh_token, hpf, hat] at h
      | some tok =>
        simp only [refresh_token, hpf, hat, Bool.false_eq_true,
          not_false_eq_true, if_false] at h
        cases h
        simp [AmazonAccount.update_expiry, hat]

/-- Witness for C10: a concrete successful refresh. -/
theorem refresh_token_frame_witness :
    (({ sampleAccount with access_token := "newTok" } : AmazonAccount).update_expiry
        3600 7).id = sampleAccount.id
    ∧ (({ sampleAccount with access_token := "newTok" } : AmazonAccount).update_expiry
        3600 7).expire_at = 7 + 3600 :=
  ⟨(refresh_token_frame (some "pw") sampleAccount ⟨false, some "newTok"⟩ 7 _ rfl).1,
    (refresh_token_frame (some "pw") sampleAccount ⟨false, some "newTok"⟩ 7 _
      rfl).2.2.2.2.2.2.2.2.2.2.2.1⟩

end Comix
